import Mathlib

/-!
Verification of the secure media gateway of cinematacms.

This file is a shallow embedding of `files/secure_media_views.py` and
`files/query_cache.py`: path validation and classification, path-to-asset
resolution with its forward cache, the authorization state machine with its
permission cache, and the version-bump cache invalidation layer.

Strings are modelled by Lean `String`; path operations (split on slash,
startswith, endswith, lower) are implemented over the underlying character
lists, mirroring the semantics of the Python string methods used by the
source. The relational store (the Django models `Media`, `Encoding`,
`Subtitle`, absent from the repository snapshot) is modelled as lists of
records holding exactly the fields the gateway reads, and querysets are
modelled as list filtering in store order, with explicit sorting where the
source uses `order_by`. The shared key/value cache is modelled as an
association list, and SHA-256 is abstracted by an explicit `hash` function
parameter, injective where a theorem needs collision freedom.
-/

/-- Python `s.startswith(pre)`. -/
def strStartsWith (s pre : String) : Bool := pre.data.isPrefixOf s.data

/-- Python `s.endswith(suf)`. -/
def strEndsWith (s suf : String) : Bool := suf.data.isSuffixOf s.data

/-- Python `s.split(sep)` for a single-character separator `/`. -/
def splitSlash (s : String) : List String := (s.data.splitOn '/').map (fun l => String.mk l)

/-- Python `s.lower()` restricted to ASCII (the only characters the
gateway compares after lowering). -/
def strToLower (s : String) : String := String.mk (s.data.map Char.toLower)

/-- Substring search over character lists. -/
def listContainsSub (sub : List Char) : List Char → Bool
  | [] => sub.isPrefixOf []
  | c :: t => sub.isPrefixOf (c :: t) || listContainsSub sub t

/-- Python `sub in s` substring test, used for the `\.\.` alternative of the
traversal regex. -/
def strContainsSub (s sub : String) : Bool := listContainsSub sub.data s.data

/-- Python truthiness of a string: nonempty. -/
def strTruthy (s : String) : Bool := s != ""

/-- Association-list lookup, modelling `cache.get(key)`. -/
def alookup {κ β : Type} [DecidableEq κ] : List (κ × β) → κ → Option β
  | [], _ => none
  | (k, v) :: t, k0 => if k = k0 then some v else alookup t k0

/-- Association-list update, modelling `cache.set(key, value)`. -/
def aset {κ β : Type} [DecidableEq κ] : List (κ × β) → κ → β → List (κ × β)
  | [], k0, v0 => [(k0, v0)]
  | (k, v) :: t, k0, v0 => if k = k0 then (k0, v0) :: t else (k, v) :: aset t k0 v0

/-- Association-list deletion, modelling `cache.delete(key)`. -/
def adel {κ β : Type} [DecidableEq κ] : List (κ × β) → κ → List (κ × β)
  | [], _ => []
  | (k, v) :: t, k0 => if k = k0 then adel t k0 else (k, v) :: adel t k0

/-- Modelled from the spec: a caller identity as the gateway reads it
(`request.user`). The repository snapshot does not contain the user model;
the fields are the attributes read by `secure_media_views.py` and by the
role helpers in `files/methods.py` (`is_superuser`, `is_manager`,
`is_editor`), plus a curator-role flag for `is_curator`, whose definition
is absent from the snapshot. -/
structure SMUser where
  id : Nat
  username : String
  is_authenticated : Bool
  is_superuser : Bool
  is_manager : Bool
  is_editor : Bool
  is_curator_role : Bool
deriving DecidableEq

/-- Modelled from the spec: the `Media` model (absent from the snapshot),
restricted to the fields read by the gateway: identity, owner, visibility
state, access password (empty means unset), the denormalized filename, and
the stored file-path fields. File-path fields hold the stored name; the
empty string models an unset field (Python falsy). -/
structure Media where
  id : Nat
  uid : String
  friendly_token : String
  user_id : Nat
  username : String
  state : String
  password : String
  filename : String
  media_file : String
  thumbnail : String
  poster : String
  uploaded_thumbnail : String
  uploaded_poster : String
  sprites : String
deriving DecidableEq

/-- Modelled from the spec: the `Encoding` model (absent from the
snapshot): a per-profile rendition of a media item. -/
structure Encoding where
  id : Nat
  media_id : Nat
  profile_id : Nat
  filename : String
  media_file : String
deriving DecidableEq

/-- Modelled from the spec: the `Subtitle` model (absent from the
snapshot): a caption file tied to a media item. -/
structure Subtitle where
  id : Nat
  media_id : Nat
  subtitle_file : String
deriving DecidableEq

/-- The metadata store: the three tables the gateway queries. -/
structure DB where
  media : List Media
  encodings : List Encoding
  subtitles : List Subtitle
deriving DecidableEq

/-- Django `select_related` join from an encoding or subtitle row to its
parent media row (`encoding.media` and `subtitle.media`). -/
def mediaById (db : DB) (mid : Nat) : Option Media := db.media.find? (fun m => m.id == mid)

/-- Insertion of a media row into a list sorted by ascending id. -/
def insertById (m : Media) : List Media → List Media
  | [] => [m]
  | x :: xs => if m.id ≤ x.id then m :: x :: xs else x :: insertById m xs

/-- Django `order_by` on ascending id. -/
def sortById (l : List Media) : List Media := l.foldr insertById []

/-- Insertion of a subtitle row into a list sorted by descending id. -/
def insertByIdDesc (s : Subtitle) : List Subtitle → List Subtitle
  | [] => [s]
  | x :: xs => if x.id ≤ s.id then s :: x :: xs else x :: insertByIdDesc s xs

/-- Django `order_by` on descending id. -/
def sortByIdDesc (l : List Subtitle) : List Subtitle := l.foldr insertByIdDesc []

/-- `PUBLIC_MEDIA_PATHS` from `secure_media_views.py`. -/
def PUBLIC_MEDIA_PATHS : List String :=
  ["userlogos/", "logos/", "favicons/", "social-media-icons/",
   "tinymce_media/", "homepage-popups/",
   "original/categories/", "original/topics/"]

/-- The base allowed path whitelist built inside `_is_valid_file_path`. -/
def allowed_video_paths : List String :=
  ["videos/media/", "videos/encoded/", "videos/subtitles/", "other_media/",
   "hls/", "encoded/", "original/"]

/-- The full allowed whitelist: the base list extended with every public
path and, when not already present, its `original/` variant, exactly as the
loop in `_is_valid_file_path` builds it. -/
def allowed_path_whitelist : List String :=
  PUBLIC_MEDIA_PATHS.foldl
    (fun acc pub =>
      let acc1 := acc ++ [pub]
      let orig := "original/" ++ pub
      if orig ∈ acc1 then acc1 else acc1 ++ [orig])
    allowed_video_paths

/-- The search of `INVALID_PATH_PATTERNS` (a match anywhere of `\.\.`, a
backslash, a NUL byte, or a control character in `\x01`-`\x1f` or `\x7f`). -/
def invalid_path_search (p : String) : Bool :=
  strContainsSub p ".." ||
    p.data.any (fun c =>
      c = '\\' || c.toNat = 0 || (1 ≤ c.toNat && c.toNat ≤ 31) || c.toNat = 127)

/-- `SecureMediaView._is_valid_file_path`. -/
def is_valid_file_path (p : String) : Bool :=
  if invalid_path_search p then false
  else if strStartsWith p "/" then false
  else allowed_path_whitelist.any (fun pre => strStartsWith p pre)

/-- `SecureMediaView._is_public_media_file`. -/
def is_public_media_file (p : String) : Bool :=
  PUBLIC_MEDIA_PATHS.any (fun pub => strStartsWith p pub) ||
    strStartsWith p "original/userlogos/"

/-- `SecureMediaView._is_media_associated_file`. -/
def is_media_associated_file (p : String) : Bool :=
  strStartsWith p "original/thumbnails/user/" ||
    (strStartsWith p "encoded/" && strEndsWith (strToLower p) ".gif") ||
    strStartsWith p "original/subtitles/user/"

/-- The `CONTENT_TYPES` table of `SecureMediaView`. -/
def CONTENT_TYPES : List (String × String) :=
  [(".mp4", "video/mp4"), (".webm", "video/webm"), (".mov", "video/quicktime"),
   (".avi", "video/x-msvideo"), (".jpg", "image/jpeg"), (".jpeg", "image/jpeg"),
   (".png", "image/png"), (".gif", "image/gif"), (".mp3", "audio/mpeg"),
   (".wav", "audio/wav"), (".pdf", "application/pdf"), (".vtt", "text/vtt"),
   (".m3u8", "application/vnd.apple.mpegurl"), (".ts", "video/mp2t")]

/-- The `video_extensions` set of `_is_non_video_file`. -/
def video_extensions : List String :=
  [".mp4", ".avi", ".mkv", ".mov", ".wmv", ".flv", ".webm",
   ".m4v", ".3gp", ".ogv", ".asf", ".rm", ".rmvb", ".vob",
   ".mpg", ".mpeg", ".mp2", ".mpe", ".mpv", ".m2v", ".m4p",
   ".f4v", ".ts", ".m3u8"]

/-- The basename of a path: the characters after the last slash. -/
def afterLastSlash (l : List Char) : List Char := (l.reverse.takeWhile (fun c => c ≠ '/')).reverse

/-- Python `os.path.splitext(p)[1]`: the extension of the basename,
including the dot; empty when the basename has no dot after its leading
dots. -/
def splitext_ext (p : String) : String :=
  let b := afterLastSlash p.data
  let revAfterDot := b.reverse.takeWhile (fun c => c ≠ '.')
  if revAfterDot.length = b.length then ""
  else
    let stem := b.take (b.length - revAfterDot.length - 1)
    if stem.any (fun c => c ≠ '.') then String.mk ('.' :: revAfterDot.reverse)
    else ""

/-- Modelled from the spec: the platform MIME table consulted through
`mimetypes.guess_type` (an external collaborator of the gateway), keyed on
the lowered extension and restricted to entries relevant to the
video-likeness test. Extensions outside the table yield no content type. -/
def mimetypes_guess_type (p : String) : Option String :=
  alookup
    [(".qt", "video/quicktime"), (".mpa", "video/mpeg"), (".mpe", "video/mpeg"),
     (".mpg", "video/mpeg"), (".mpeg", "video/mpeg"), (".m1v", "video/mpeg"),
     (".avi", "video/x-msvideo"), (".mov", "video/quicktime"),
     (".webm", "video/webm"), (".mp4", "video/mp4")]
    (strToLower (splitext_ext p))

/-- `SecureMediaView._is_non_video_file`: true when the path may bypass
authorization because it is not video-like; media-associated files never
bypass. -/
def is_non_video_file (p : String) : Bool :=
  if is_media_associated_file p then false
  else
    let file_ext := strToLower (splitext_ext p)
    if video_extensions.contains file_ext then false
    else
      let content_type : Option String :=
        match alookup CONTENT_TYPES file_ext with
        | some c => some c
        | none => mimetypes_guess_type p
      let is_video_by_content_type :=
        (match content_type with
         | some c => strStartsWith c "video/"
         | none => false) ||
          content_type == some "application/vnd.apple.mpegurl" ||
          content_type == some "video/mp2t"
      let is_in_hls_directory := strStartsWith p "hls/"
      !(is_video_by_content_type || is_in_hls_directory)

/-- The list of recorded thumbnail-field paths of a media row, as
`_verify_media_owns_thumbnail_path` collects it (each field contributes
when Python-truthy, i.e. nonempty). -/
def thumbnailPaths (m : Media) : List String :=
  (if strTruthy m.thumbnail then [m.thumbnail] else []) ++
    (if strTruthy m.poster then [m.poster] else []) ++
    (if strTruthy m.uploaded_thumbnail then [m.uploaded_thumbnail] else []) ++
    (if strTruthy m.uploaded_poster then [m.uploaded_poster] else []) ++
    (if strTruthy m.sprites then [m.sprites] else [])

/-- `SecureMediaView._verify_media_owns_thumbnail_path`: the requested path
must exactly equal one of the thumbnail-field paths, or, for an encoded
GIF, the exact `media_file` of one of the encodings of this media row. -/
def verify_media_owns_thumbnail_path (db : DB) (media : Media) (file_path : String) : Bool :=
  if (thumbnailPaths media).contains file_path then true
  else if strStartsWith file_path "encoded/" && strEndsWith (strToLower file_path) ".gif" then
    db.encodings.any (fun e => e.media_id == media.id && e.media_file == file_path)
  else false

/-- Python `str.isdigit` restricted to ASCII digits. -/
def pyIsDigit (s : String) : Bool := s.data ≠ [] && s.data.all (fun c => '0' ≤ c && c ≤ '9')

/-- Numeric value of an ASCII digit string. -/
def digitsToNat (l : List Char) : Nat := l.foldl (fun acc c => acc * 10 + (c.toNat - 48)) 0

/-- ASCII hexadecimal digit. -/
def isHexDigit (c : Char) : Bool :=
  ('0' ≤ c && c ≤ '9') || ('a' ≤ c && c ≤ 'f') || ('A' ≤ c && c ≤ 'F')

/-- Continuation of a digit run for Python `int(s, 16)`: zero or more
hexadecimal digits, each optionally preceded by a single underscore, so
underscores appear only between digits. -/
def hexDigitsTail : List Char → Bool
  | [] => true
  | '_' :: c :: rest => isHexDigit c && hexDigitsTail rest
  | ['_'] => false
  | c :: rest => isHexDigit c && hexDigitsTail rest

/-- A nonempty hexadecimal digit run with single underscores between
digits. -/
def hexDigitsRun : List Char → Bool
  | [] => false
  | c :: rest => isHexDigit c && hexDigitsTail rest

/-- A digit run directly after a `0x` base marker, where Python also
permits one leading underscore. -/
def hexRunAfterBaseMarker : List Char → Bool
  | '_' :: rest => hexDigitsRun rest
  | l => hexDigitsRun l

/-- Python whitespace stripped by `int()`. -/
def isPyWs (c : Char) : Bool :=
  c = ' ' || c = '\t' || c = '\n' || c = '\x0d' || c = '\x0b' || c = '\x0c'

/-- Acceptance of Python `int(s, 16)` on ASCII strings: surrounding
whitespace, an optional sign, an optional `0x`/`0X` marker, then a
hexadecimal digit run with single underscores between digits. -/
def pyIntBase16Accepts (s : String) : Bool :=
  let l := ((s.data.dropWhile isPyWs).reverse.dropWhile isPyWs).reverse
  let l := match l with
    | '+' :: r => r
    | '-' :: r => r
    | r => r
  match l with
  | '0' :: 'x' :: rest => hexRunAfterBaseMarker rest
  | '0' :: 'X' :: rest => hexRunAfterBaseMarker rest
  | r => hexDigitsRun r

/-- `SecureMediaView._is_valid_uid`: length 8 to 64 and parseable by
Python `int(_, 16)`. -/
def is_valid_uid (uid_str : String) : Bool :=
  if !strTruthy uid_str || uid_str.data.length < 8 || uid_str.data.length > 64 then false
  else pyIntBase16Accepts uid_str

/-- The exact thumbnail query of `_get_media_from_path`: owner username
and one of the five thumbnail fields equal to the reconstructed path,
ordered by id. -/
def thumbnailExactQuery (db : DB) (username tpath : String) : Option Media :=
  (sortById (db.media.filter (fun m =>
    m.username == username &&
      (m.thumbnail == tpath || m.poster == tpath || m.uploaded_thumbnail == tpath ||
        m.uploaded_poster == tpath || m.sprites == tpath)))).head?

/-- The suffix-discovery query of `_get_media_from_path`: any of the five
thumbnail fields ends with the filename, ordered by id. -/
def thumbnailSuffixQuery (db : DB) (filename : String) : List Media :=
  sortById (db.media.filter (fun m =>
    strEndsWith m.thumbnail filename || strEndsWith m.poster filename ||
      strEndsWith m.uploaded_thumbnail filename || strEndsWith m.uploaded_poster filename ||
      strEndsWith m.sprites filename))

/-- The candidate scan of the thumbnail fallback: walk the (bounded)
suffix matches in order, accept the first verified candidate with the
requested owner, remember the first verified candidate with another owner
as an ownership-transfer match, and fall back to it. -/
def scanThumbnailMatches (db : DB) (file_path username : String) :
    List Media → Option Media → Option Media
  | [], transfer => transfer
  | m :: rest, transfer =>
    if verify_media_owns_thumbnail_path db m file_path then
      if m.username == username then some m
      else
        match transfer with
        | none => scanThumbnailMatches db file_path username rest (some m)
        | some t => scanThumbnailMatches db file_path username rest (some t)
    else scanThumbnailMatches db file_path username rest transfer

/-- `SecureMediaView._get_media_from_path`: dispatch on the path shape and
run the fallback chains. The result is the found media (or none) and the
optional actual-path override; the returned store reflects the
filename-backfill writes of the fallback branches. -/
def get_media_from_path (db : DB) (file_path : String) :
    (Option Media × Option String) × DB :=
  if strStartsWith file_path "original/user/" then
    let parts := splitSlash file_path
    if parts.length ≥ 4 then
      let username := parts.getD 2 ""
      let filename := parts.getD 3 ""
      match db.media.find? (fun m => m.username == username && m.filename == filename) with
      | some m => ((some m, none), db)
      | none =>
        match db.media.find? (fun m =>
            m.username == username && strEndsWith m.media_file filename) with
        | some m =>
          if !strTruthy m.filename then
            let m1 := { m with filename := filename }
            ((some m1, none),
              { db with media := db.media.map (fun x => if x == m then m1 else x) })
          else ((some m, none), db)
        | none =>
          match db.media.find? (fun m => m.filename == filename) with
          | some m =>
            if !strTruthy m.media_file then ((none, none), db)
            else ((some m, some m.media_file), db)
          | none => ((none, none), db)
    else ((none, none), db)
  else if strStartsWith file_path "original/thumbnails/user/" then
    let parts := splitSlash file_path
    if parts.length ≥ 5 then
      let username := parts.getD 3 ""
      let filename := parts.getD 4 ""
      let thumbnail_path := "original/thumbnails/user/" ++ username ++ "/" ++ filename
      match thumbnailExactQuery db username thumbnail_path with
      | some m => ((some m, none), db)
      | none =>
        let suffixMatches := (thumbnailSuffixQuery db filename).take 10
        match scanThumbnailMatches db file_path username suffixMatches none with
        | some m => ((some m, none), db)
        | none => ((none, none), db)
    else ((none, none), db)
  else if strStartsWith file_path "original/subtitles/user/" then
    let parts := splitSlash file_path
    if parts.length ≥ 5 then
      let username := parts.getD 3 ""
      let filename := parts.getD 4 ""
      let subMedia := fun (s : Subtitle) =>
        match mediaById db s.media_id with
        | some m => some m
        | none => none
      let ownerMatches := fun (s : Subtitle) =>
        match subMedia s with
        | some m => m.username == username
        | none => false
      match db.subtitles.find? (fun s => ownerMatches s && s.subtitle_file == file_path) with
      | some s =>
        match subMedia s with
        | some m => ((some m, none), db)
        | none => ((none, none), db)
      | none =>
        let viaSuffix :=
          match db.subtitles.find? (fun s =>
              ownerMatches s && strEndsWith s.subtitle_file filename) with
          | some s =>
            if strTruthy s.subtitle_file && s.subtitle_file == file_path then subMedia s
            else none
          | none => none
        match viaSuffix with
        | some m => ((some m, none), db)
        | none =>
          match (sortByIdDesc (db.subtitles.filter (fun s =>
              strEndsWith s.subtitle_file filename))).head? with
          | some s =>
            if strTruthy s.subtitle_file && s.subtitle_file == file_path then
              match subMedia s with
              | some m => ((some m, none), db)
              | none => ((none, none), db)
            else ((none, none), db)
          | none => ((none, none), db)
    else ((none, none), db)
  else if strStartsWith file_path "encoded/" then
    let parts := splitSlash file_path
    if parts.length ≥ 4 then
      let profile_id_str := parts.getD 1 ""
      let username := parts.getD 2 ""
      let filename := parts.getD 3 ""
      let profileOk := fun (e : Encoding) =>
        if pyIsDigit profile_id_str then e.profile_id == digitsToNat profile_id_str.data
        else true
      let encMedia := fun (e : Encoding) =>
        match mediaById db e.media_id with
        | some m => some m
        | none => none
      let ownerMatches := fun (e : Encoding) =>
        match encMedia e with
        | some m => m.username == username
        | none => false
      match db.encodings.find? (fun e =>
          ownerMatches e && e.filename == filename && profileOk e) with
      | some e =>
        match encMedia e with
        | some m => ((some m, none), db)
        | none => ((none, none), db)
      | none =>
        match db.encodings.find? (fun e =>
            ownerMatches e && strEndsWith e.media_file filename && profileOk e) with
        | some e =>
          let db1 :=
            if !strTruthy e.filename then
              { db with encodings := db.encodings.map (fun x =>
                  if x == e then { e with filename := filename } else x) }
            else db
          match encMedia e with
          | some m => ((some m, none), db1)
          | none => ((none, none), db1)
        | none =>
          match db.encodings.find? (fun e => e.filename == filename && profileOk e) with
          | some e =>
            if !strTruthy e.media_file then ((none, none), db)
            else
              match encMedia e with
              | some m => ((some m, some e.media_file), db)
              | none => ((none, none), db)
          | none => ((none, none), db)
    else ((none, none), db)
  else if strStartsWith file_path "hls/" then
    let parts := splitSlash file_path
    if parts.length ≥ 3 then
      let folder_name := parts.getD 1 ""
      if is_valid_uid folder_name then
        ((db.media.find? (fun m => m.uid == folder_name), none), db)
      else ((none, none), db)
    else ((none, none), db)
  else ((none, none), db)

/-- The gateway state threaded through a request: the metadata store, the
forward path cache (file path to media id; the real key is the full
SHA-256 of the path, which is collision-resistant and is modelled
injectively by keying on the path itself), the reverse path index
(media id to the set of forward keys), and the permission cache. -/
structure PermCacheKeyData where
  user_id : String
  media_uid : String
  additional_data : Option String
deriving DecidableEq

/-- Modelled from the spec: the permission-cache key space of
`files/cache_utils.py` (absent from the snapshot). Its documented formats
are `media_permission:{user_id}:{media_uid}[:{additional_data_hash}]` and
`elevated_access:{user_id}:{media_uid}`; the two families are represented
structurally, which keeps them disjoint and injective in their
components. -/
inductive PermCacheKey where
  | permission (d : PermCacheKeyData)
  | elevated_access (user_id : Nat) (media_uid : String)
deriving DecidableEq

/-- Modelled from the spec: `get_permission_cache_key` of
`files/cache_utils.py`. -/
def get_permission_cache_key (user_id : String) (media_uid : String)
    (additional_data : Option String) : PermCacheKey :=
  PermCacheKey.permission ⟨user_id, media_uid, additional_data⟩

/-- Modelled from the spec: `get_elevated_access_cache_key` of
`files/cache_utils.py`. -/
def get_elevated_access_cache_key (user_id : Nat) (media_uid : String) : PermCacheKey :=
  PermCacheKey.elevated_access user_id media_uid

/-- The permission cache: cached boolean decisions by key. -/
abbrev PermCache : Type := List (PermCacheKey × Bool)

/-- Full gateway cache state. -/
structure GatewayState where
  db : DB
  pathCache : List (String × Nat)
  reverseIndex : List (Nat × List String)
  permCache : PermCache
deriving DecidableEq

/-- `get_cached_media_id`: a cached id is used only when Python-truthy
(a cached 0 counts as a miss). -/
def get_cached_media_id (st : GatewayState) (file_path : String) : Option Nat :=
  match alookup st.pathCache file_path with
  | some mid => if mid ≠ 0 then some mid else none
  | none => none

/-- `set_cached_media_id`: store the forward mapping and add the forward
key to the reverse mapping set of the media id. -/
def set_cached_media_id (st : GatewayState) (file_path : String) (media_id : Nat) :
    GatewayState :=
  let keys := (alookup st.reverseIndex media_id).getD []
  { st with
    pathCache := aset st.pathCache file_path media_id
    reverseIndex := aset st.reverseIndex media_id
      (if file_path ∈ keys then keys else keys ++ [file_path]) }

/-- The fresh-lookup tail of `_get_media_from_path_cached`: run
`_get_media_from_path` and cache the forward mapping on success. -/
def get_media_from_path_fresh (st : GatewayState) (file_path : String) :
    (Option Media × Option String) × GatewayState :=
  let r := get_media_from_path st.db file_path
  let st1 := { st with db := r.snd }
  match r.fst.fst with
  | some m => ((some m, r.fst.snd), set_cached_media_id st1 file_path m.id)
  | none => ((none, r.fst.snd), st1)

/-- `SecureMediaView._get_media_from_path_cached`: consult the forward
cache; on a hit for a stale-ownership-prone path class re-verify exact
ownership, evicting and falling through on mismatch; on a miss delegate
to `_get_media_from_path` and cache a successful result. -/
def get_media_from_path_cached (st : GatewayState) (file_path : String) :
    (Option Media × Option String) × GatewayState :=
  match get_cached_media_id st file_path with
  | some mid =>
    match mediaById st.db mid with
    | some media =>
      if strStartsWith file_path "original/thumbnails/user/" ||
          (strStartsWith file_path "encoded/" &&
            strEndsWith (strToLower file_path) ".gif") then
        if verify_media_owns_thumbnail_path st.db media file_path then
          ((some media, none), st)
        else
          get_media_from_path_fresh
            { st with pathCache := adel st.pathCache file_path } file_path
      else ((some media, none), st)
    | none => get_media_from_path_fresh st file_path
  | none => get_media_from_path_fresh st file_path

/-- `is_mediacms_editor` from `files/methods.py`. -/
def is_mediacms_editor (u : SMUser) : Bool := u.is_superuser || u.is_manager || u.is_editor

/-- `is_mediacms_manager` from `files/methods.py`. -/
def is_mediacms_manager (u : SMUser) : Bool := u.is_superuser || u.is_manager

/-- Modelled from the spec: `is_curator` (not present in the snapshot);
the spec counts a curator role among the elevated roles. -/
def is_curator (u : SMUser) : Bool := u.is_curator_role

/-- A request as the authorization engine reads it: the caller, the
`password` query parameter, and the session entries
(`media_password_{friendly_token}` keys). -/
structure Request where
  user : SMUser
  query_password : Option String
  session : List (String × String)
deriving DecidableEq

/-- Python `request.session.get(key)`. -/
def sessionGet (req : Request) (key : String) : Option String :=
  alookup req.session key

/-- `SecureMediaView._user_has_elevated_access`: owner or elevated role,
cached per caller and media. -/
def user_has_elevated_access (pc : PermCache) (u : SMUser) (m : Media) :
    Bool × PermCache :=
  if !u.is_authenticated then (false, pc)
  else
    let key := get_elevated_access_cache_key u.id m.uid
    match alookup pc key with
    | some b => (b, pc)
    | none =>
      let r := u.id == m.user_id || is_mediacms_editor u ||
        is_mediacms_manager u || is_curator u
      (r, aset pc key r)

/-- `SecureMediaView._calculate_access_permission`: the uncached
authorization decision. The `hash` parameter is the SHA-256 hex digest
used on password material; `hmac.compare_digest` is modelled by its
functional behaviour, string equality. -/
def calculate_access_permission (hash : String → String) (pc : PermCache)
    (req : Request) (m : Media) : Bool × PermCache :=
  let elevated :=
    if req.user.is_authenticated then user_has_elevated_access pc req.user m
    else (false, pc)
  if req.user.is_authenticated && elevated.fst then (true, elevated.snd)
  else
    let pc := elevated.snd
    if m.state == "restricted" then
      let session_password_hash := sessionGet req ("media_password_" ++ m.friendly_token)
      let query_password := req.query_password
      let expected_password_hash : Option String :=
        if strTruthy m.password then some (hash m.password) else none
      let valid_session_password :=
        match session_password_hash, expected_password_hash with
        | some sh, some eh => strTruthy sh && sh == eh
        | _, _ => false
      let valid_query_password :=
        match query_password, expected_password_hash with
        | some q, some eh => strTruthy q && hash q == eh
        | _, _ => false
      (valid_session_password || valid_query_password, pc)
    else if !req.user.is_authenticated then (false, pc)
    else (false, pc)

/-- The password-attempt material `_check_access_permission` derives the
restricted cache key from: the session hash when present, else the hashed
query password, else a fixed marker. -/
def attemptMaterial (hash : String → String) (req : Request) (m : Media) : String :=
  match sessionGet req ("media_password_" ++ m.friendly_token) with
  | some sh =>
    if strTruthy sh then sh
    else
      match req.query_password with
      | some q => if strTruthy q then hash q else "no_password"
      | none => "no_password"
  | none =>
    match req.query_password with
    | some q => if strTruthy q then hash q else "no_password"
    | none => "no_password"

/-- `SecureMediaView._check_access_permission`: the cached authorization
decision. Public and unlisted media short-circuit to allow; for
restricted media the cache key carries a truncated hash of the attempt
material; otherwise the decision is computed and cached. -/
def check_access_permission (hash : String → String) (pc : PermCache)
    (req : Request) (m : Media) : Bool × PermCache :=
  let user_id := if req.user.is_authenticated then toString req.user.id else "anonymous"
  if m.state == "public" || m.state == "unlisted" then (true, pc)
  else
    let additional_data : Option String :=
      if m.state == "restricted" then
        some ("restricted:" ++ String.mk ((hash (attemptMaterial hash req m)).data.take 12))
      else none
    let key := get_permission_cache_key user_id m.uid additional_data
    match alookup pc key with
    | some b => (b, pc)
    | none =>
      let r := calculate_access_permission hash pc req m
      (r.fst, aset r.snd key r.fst)

/-- The externally observable responses of `_handle_request`: a 404 with
its internal message, a 403 with body and cache-control header, or a
served file path (the X-Accel or direct delivery collaborator). -/
inductive HttpResult where
  | notFound (msg : String)
  | forbidden (body : String) (cache_control : String)
  | served (path : String)
deriving DecidableEq

/-- The HTTP status code of a response, the shape a caller observes. -/
def statusOf : HttpResult → Nat
  | .notFound _ => 404
  | .forbidden _ _ => 403
  | .served _ => 200

/-- The resolution-and-authorization tail of `_handle_request`, reached
for validated paths that are neither public nor generic non-video
bypasses: resolve the path, 404 on failure, check access, 403 with
`no-store` on denial, else serve the override path when present. -/
def resolve_and_serve (hash : String → String) (st : GatewayState)
    (req : Request) (file_path : String) : HttpResult × GatewayState :=
  let r := get_media_from_path_cached st file_path
  let st1 := r.snd
  match r.fst.fst with
  | none => (.notFound "Media not found", st1)
  | some media =>
    let c := check_access_permission hash st1.permCache req media
    let st2 := { st1 with permCache := c.snd }
    if !c.fst then (.forbidden "Access denied" "no-store", st2)
    else
      let serving_path :=
        match r.fst.snd with
        | some actual => actual
        | none => file_path
      (.served serving_path, st2)

/-- `SecureMediaView._handle_request` on the URL-decoded path: validate,
classify public and non-video bypasses, then resolve and authorize. -/
def handle_request (hash : String → String) (st : GatewayState)
    (req : Request) (file_path : String) : HttpResult × GatewayState :=
  if !is_valid_file_path file_path then (.notFound "Invalid file path", st)
  else if is_public_media_file file_path then (.served file_path, st)
  else if is_non_video_file file_path then (.served file_path, st)
  else resolve_and_serve hash st req file_path

/-- The cache version store of `files/query_cache.py`: one counter per
(scope, identifier) pair, absent until first read or bump. -/
abbrev VersionState : Type := List ((String × String) × Nat)

/-- `_get_cache_version`: read the counter; an absent counter is set to 1
and 1 is returned. -/
def get_cache_version (st : VersionState) (scope identifier : String) :
    Nat × VersionState :=
  match alookup st (scope, identifier) with
  | some v => (v, st)
  | none => (1, aset st (scope, identifier) 1)

/-- `_bump_cache_version`: an absent counter is set to 1, a present one
is atomically incremented. -/
def bump_cache_version (st : VersionState) (scope identifier : String) :
    Nat × VersionState :=
  match alookup st (scope, identifier) with
  | none => (1, aset st (scope, identifier) 1)
  | some v => (v + 1, aset st (scope, identifier) (v + 1))

/-- `invalidate_media_cache`: bump the version of the media scope of this
asset and the global list scope. -/
def invalidate_media_cache (st : VersionState) (friendly_token : String) :
    Nat × VersionState :=
  let b1 := bump_cache_version st "media" friendly_token
  let b2 := bump_cache_version b1.snd "media_list" "all"
  (1, b2.snd)

/-- `invalidate_media_list_cache`: bump only the global list scope. -/
def invalidate_media_list_cache (st : VersionState) : Nat × VersionState :=
  let b := bump_cache_version st "media_list" "all"
  (1, b.snd)

/-- `get_media_detail_cache_key`: a derived key embedding the current
media-scope version. -/
def get_media_detail_cache_key (st : VersionState) (friendly_token : String)
    (user_id : Option Nat) : String × VersionState :=
  let user_part := match user_id with
    | some u => toString u
    | none => "anon"
  let v := get_cache_version st "media" friendly_token
  ("cinemata:query:media_detail:" ++ friendly_token ++ ":" ++ user_part ++
    ":v" ++ toString v.fst, v.snd)

/-- `get_related_media_cache_key`: a derived key embedding both the
media-scope and the global list-scope versions. -/
def get_related_media_cache_key (st : VersionState) (friendly_token : String)
    (limit : Nat) : String × VersionState :=
  let mv := get_cache_version st "media" friendly_token
  let lv := get_cache_version mv.snd "media_list" "all"
  ("cinemata:query:related_media:" ++ friendly_token ++ ":" ++ toString limit ++
    ":v" ++ toString mv.fst ++ "_" ++ toString lv.fst, lv.snd)

/-- The operations other components apply to the version store between a
key issuance and an invalidation: version reads (key issuances) and
version bumps. -/
inductive VersionOp where
  | readVersion (scope identifier : String)
  | bumpVersion (scope identifier : String)

/-- Application of one version-store operation. -/
def applyVersionOp (st : VersionState) : VersionOp → VersionState
  | .readVersion scope identifier => (get_cache_version st scope identifier).snd
  | .bumpVersion scope identifier => (bump_cache_version st scope identifier).snd

/-- Application of a sequence of version-store operations. -/
def runVersionOps (st : VersionState) : List VersionOp → VersionState
  | [] => st
  | op :: rest => runVersionOps (applyVersionOp st op) rest

/-- The effective version of a counter: 0 while absent. -/
def versionValue (st : VersionState) (k : String × String) : Nat :=
  (alookup st k).getD 0

/-- The identifier shape stated by the spec for HLS folder segments (and
by the docstring of `_is_valid_uid`): a string of 8 to 64 hexadecimal
digit characters. Stated from the spec wording, for comparison with the
implementation. -/
def spec_valid_uid (s : String) : Bool :=
  8 ≤ s.data.length && s.data.length ≤ 64 && s.data.all isHexDigit

/-- The thumbnail path `_get_media_from_path` reconstructs from the owner
and filename segments of a thumbnail-class request path. -/
def reconstructedThumbnailPath (p : String) : String :=
  let parts := splitSlash p
  "original/thumbnails/user/" ++ parts.getD 3 "" ++ "/" ++ parts.getD 4 ""

theorem alookup_aset_self {κ β : Type} [DecidableEq κ] (l : List (κ × β)) (k : κ) (v : β) :
    alookup (aset l k v) k = some v := by
  induction l with
  | nil => simp [aset, alookup]
  | cons h t ih =>
    obtain ⟨k1, v1⟩ := h
    by_cases hk : k1 = k
    · simp [aset, alookup, hk]
    · simp [aset, alookup, hk, ih]

theorem alookup_aset_ne {κ β : Type} [DecidableEq κ] (l : List (κ × β)) (k k0 : κ) (v : β)
    (h : k ≠ k0) : alookup (aset l k v) k0 = alookup l k0 := by
  induction l with
  | nil => simp [aset, alookup, h]
  | cons hd t ih =>
    obtain ⟨k1, v1⟩ := hd
    by_cases hk : k1 = k
    · subst hk
      simp [aset, alookup, h]
    · simp [aset, alookup, hk, ih]

theorem strStartsWith_exists {p : String} {pre : String}
    (h : strStartsWith p pre = true) : ∃ t, p.data = pre.data ++ t := by
  unfold strStartsWith at h
  obtain ⟨t, ht⟩ := List.isPrefixOf_iff_prefix.mp h
  exact ⟨t, ht.symm⟩

/-- C6: a request path containing the substring `..`, or containing a NUL
byte, or beginning with `/`, fails path validation and is rejected by the
gateway with the invalid-path 404 before any resolution, with the cache
state returned untouched and the response independent of the store and
cache contents. -/
theorem c6_traversal_rejected (hash : String → String) (st : GatewayState) (req : Request)
    (p : String)
    (h : strContainsSub p ".." = true ∨ p.data.any (fun c => c.toNat = 0) = true ∨
      strStartsWith p "/" = true) :
    is_valid_file_path p = false ∧
      handle_request hash st req p = (HttpResult.notFound "Invalid file path", st) := by
  have hv : is_valid_file_path p = false := by
    rcases h with h | h | h
    · simp [is_valid_file_path, invalid_path_search, h]
    · have hsearch : invalid_path_search p = true := by
        unfold invalid_path_search
        rcases List.any_eq_true.mp h with ⟨c, hc, h0⟩
        refine Bool.or_eq_true_iff.mpr (Or.inr (List.any_eq_true.mpr ⟨c, hc, ?_⟩))
        simp only [decide_eq_true_eq] at h0
        simp [h0]
      simp [is_valid_file_path, hsearch]
    · unfold is_valid_file_path
      cases hip : invalid_path_search p <;> simp [h, hip]
  exact ⟨hv, by simp [handle_request, hv]⟩

/-- Witness for C6 at a concrete traversal path. -/
theorem c6_traversal_rejected_witness :
    is_valid_file_path "original/../etc/passwd" = false ∧
      handle_request (fun s => s) ⟨⟨[], [], []⟩, [], [], []⟩
          ⟨⟨0, "anon", false, false, false, false, false⟩, none, []⟩
          "original/../etc/passwd" =
        (HttpResult.notFound "Invalid file path", ⟨⟨[], [], []⟩, [], [], []⟩) :=
  c6_traversal_rejected (fun s => s) ⟨⟨[], [], []⟩, [], [], []⟩
    ⟨⟨0, "anon", false, false, false, false, false⟩, none, []⟩
    "original/../etc/passwd" (Or.inl (by decide))

/-- C10: path validation is a whitelist: a path free of traversal and
control characters and not starting with a slash, but starting with none
of the allowed prefixes, is rejected with the invalid-path 404 before any
resolution or authorization, with no cache side effects. -/
theorem c10_whitelist_rejection (hash : String → String) (st : GatewayState) (req : Request)
    (p : String)
    (hclean : invalid_path_search p = false)
    (hslash : strStartsWith p "/" = false)
    (hpre : ∀ pre ∈ allowed_path_whitelist, strStartsWith p pre = false) :
    is_valid_file_path p = false ∧
      handle_request hash st req p = (HttpResult.notFound "Invalid file path", st) := by
  have hv : is_valid_file_path p = false := by
    unfold is_valid_file_path
    simp only [hclean, hslash, Bool.false_eq_true, if_false]
    exact List.any_eq_false.mpr (fun pre hmem => by simp [hpre pre hmem])
  exact ⟨hv, by simp [handle_request, hv]⟩

/-- Witness for C10 at a concrete clean but non-whitelisted path. -/
theorem c10_whitelist_rejection_witness :
    is_valid_file_path "foo/bar.mp4" = false ∧
      handle_request (fun s => s) ⟨⟨[], [], []⟩, [], [], []⟩
          ⟨⟨0, "anon", false, false, false, false, false⟩, none, []⟩ "foo/bar.mp4" =
        (HttpResult.notFound "Invalid file path", ⟨⟨[], [], []⟩, [], [], []⟩) :=
  c10_whitelist_rejection (fun s => s) ⟨⟨[], [], []⟩, [], [], []⟩
    ⟨⟨0, "anon", false, false, false, false, false⟩, none, []⟩ "foo/bar.mp4"
    (by decide) (by decide) (by decide)

theorem is_public_false_of_thumbnail {p : String}
    (h : strStartsWith p "original/thumbnails/user/" = true) :
    is_public_media_file p = false := by
  obtain ⟨t, ht⟩ := strStartsWith_exists h
  obtain ⟨l⟩ := p
  simp only [String.data] at ht
  subst ht
  rfl

theorem is_public_false_of_encoded {p : String}
    (h : strStartsWith p "encoded/" = true) :
    is_public_media_file p = false := by
  obtain ⟨t, ht⟩ := strStartsWith_exists h
  obtain ⟨l⟩ := p
  simp only [String.data] at ht
  subst ht
  rfl

theorem is_public_false_of_subtitles {p : String}
    (h : strStartsWith p "original/subtitles/user/" = true) :
    is_public_media_file p = false := by
  obtain ⟨t, ht⟩ := strStartsWith_exists h
  obtain ⟨l⟩ := p
  simp only [String.data] at ht
  subst ht
  rfl

/-- C5: a media-associated path (user thumbnail, encoded preview GIF, or
user subtitle) is never bypassed: it is not a public path, the non-video
bypass answers false on it, and a valid such path is always handed to
resolution and authorization. -/
theorem c5_media_associated_never_bypassed (p : String)
    (hassoc : is_media_associated_file p = true) :
    is_non_video_file p = false ∧ is_public_media_file p = false ∧
      ∀ (hash : String → String) (st : GatewayState) (req : Request),
        is_valid_file_path p = true →
          handle_request hash st req p = resolve_and_serve hash st req p := by
  have hnv : is_non_video_file p = false := by
    simp [is_non_video_file, hassoc]
  have hpub : is_public_media_file p = false := by
    have hcases := hassoc
    simp only [is_media_associated_file, Bool.or_eq_true, Bool.and_eq_true] at hcases
    rcases hcases with (h1 | ⟨h2, _⟩) | h3
    · exact is_public_false_of_thumbnail h1
    · exact is_public_false_of_encoded h2
    · exact is_public_false_of_subtitles h3
  refine ⟨hnv, hpub, fun hash st req hv => ?_⟩
  simp [handle_request, hv, hpub, hnv]

/-- Witness for C5 at a concrete user-thumbnail path. -/
theorem c5_media_associated_never_bypassed_witness :
    is_non_video_file "original/thumbnails/user/alice/t.jpg" = false ∧
      is_public_media_file "original/thumbnails/user/alice/t.jpg" = false ∧
      ∀ (hash : String → String) (st : GatewayState) (req : Request),
        is_valid_file_path "original/thumbnails/user/alice/t.jpg" = true →
          handle_request hash st req "original/thumbnails/user/alice/t.jpg" =
            resolve_and_serve hash st req "original/thumbnails/user/alice/t.jpg" :=
  c5_media_associated_never_bypassed "original/thumbnails/user/alice/t.jpg" (by decide)

/-- C9: for restricted media whose stored password is empty, the
authorization calculation denies every caller the system does not treat
as elevated, whatever password material the request supplies: with no
stored password there is no expected hash and both password checks are
vacuously false. -/
theorem c9_restricted_empty_password_denies (hash : String → String) (pc : PermCache)
    (req : Request) (m : Media)
    (hstate : m.state = "restricted") (hpw : m.password = "")
    (helev : (user_has_elevated_access pc req.user m).fst = false) :
    (calculate_access_permission hash pc req m).fst = false := by
  unfold calculate_access_permission
  cases hauth : req.user.is_authenticated
  · simp [hauth, hstate, hpw, strTruthy]
  · simp [hauth, helev, hstate, hpw, strTruthy]

/-- Witness for C9: an anonymous caller supplying both a query password
and a session hash is denied on a restricted asset with no stored
password. -/
theorem c9_restricted_empty_password_denies_witness :
    (calculate_access_permission (fun s => "h" ++ s) []
        ⟨⟨0, "anon", false, false, false, false, false⟩, some "guess",
          [("media_password_tok", "hsomething")]⟩
        ⟨1, "u1", "tok", 7, "owner", "restricted", "", "f.mp4", "original/user/owner/f.mp4",
          "", "", "", "", ""⟩).fst = false :=
  c9_restricted_empty_password_denies (fun s => "h" ++ s) []
    ⟨⟨0, "anon", false, false, false, false, false⟩, some "guess",
      [("media_password_tok", "hsomething")]⟩
    ⟨1, "u1", "tok", 7, "owner", "restricted", "", "f.mp4", "original/user/owner/f.mp4",
      "", "", "", "", ""⟩ rfl rfl (by decide)

/-- C7: the HLS folder validation accepts strings that are not 8-64
hexadecimal digits: Python `int(_, 16)` also accepts a `0x` base marker
(and signs, surrounding whitespace, and digit-group underscores), so a
folder such as `0x111111` passes `_is_valid_uid`, contradicting the
8-to-64-hex-characters shape stated by the claim and by the function
docstring, and resolution then performs a store lookup by that folder
and can return a media row for it. -/
theorem c7_uid_validation_accepts_non_hex :
    is_valid_uid "0x111111" = true ∧
      is_valid_uid "+1234567" = true ∧
      is_valid_uid "1_234_567" = true ∧
      spec_valid_uid "0x111111" = false ∧
      (get_media_from_path
          ⟨[⟨1, "0x111111", "tok", 7, "owner", "private", "", "", "", "", "", "", "", ""⟩],
            [], []⟩
          "hls/0x111111/index.m3u8").fst =
        (some ⟨1, "0x111111", "tok", 7, "owner", "private", "", "", "", "", "", "", "", ""⟩,
          none) :=
  ⟨by decide, by decide, by decide, by decide, by decide⟩

/-- C2: the permission cache key for restricted media is derived from the
session material alone whenever a session entry is present, while the
decision also consults the query password. A request carrying a stale
(wrong) session hash together with the correct query password therefore
caches an allow decision under a key determined only by the wrong session
hash, and a later request with the same wrong session hash and no
password at all replays that allow from the cache, although the uncached
calculation denies it. The claim that a wrong password is always denied
regardless of previously cached attempts fails on this trace. -/
theorem c2_restricted_cache_replays_allow_for_wrong_password :
    (check_access_permission (fun s => "h" ++ s) []
        ⟨⟨0, "anon", false, false, false, false, false⟩, some "secret",
          [("media_password_tok", "WRONG")]⟩
        ⟨1, "u1", "tok", 7, "owner", "restricted", "secret", "", "", "", "", "", "",
          ""⟩).fst = true ∧
      (check_access_permission (fun s => "h" ++ s)
          (check_access_permission (fun s => "h" ++ s) []
            ⟨⟨0, "anon", false, false, false, false, false⟩, some "secret",
              [("media_password_tok", "WRONG")]⟩
            ⟨1, "u1", "tok", 7, "owner", "restricted", "secret", "", "", "", "", "", "",
              ""⟩).snd
          ⟨⟨0, "anon", false, false, false, false, false⟩, none,
            [("media_password_tok", "WRONG")]⟩
          ⟨1, "u1", "tok", 7, "owner", "restricted", "secret", "", "", "", "", "", "",
            ""⟩).fst = true ∧
      (calculate_access_permission (fun s => "h" ++ s) []
          ⟨⟨0, "anon", false, false, false, false, false⟩, none,
            [("media_password_tok", "WRONG")]⟩
          ⟨1, "u1", "tok", 7, "owner", "restricted", "secret", "", "", "", "", "", "",
            ""⟩).fst = false := by
  refine ⟨by decide, by decide, by decide⟩

/-- C4 counterexample: for the same private-asset path and the same
anonymous caller, the exists-but-forbidden run answers 403 with a
no-store header while the does-not-exist run answers 404: the two denial
responses differ in shape, so a caller can distinguish the failure
modes. -/
theorem c4_denial_modes_distinguishable :
    let hash := fun s => "h" ++ s
    let m : Media := ⟨1, "u1", "tok", 7, "bob", "private", "", "f.mp4",
      "original/user/bob/f.mp4", "", "", "", "", ""⟩
    let req : Request := ⟨⟨0, "anon", false, false, false, false, false⟩, none, []⟩
    let stA : GatewayState := ⟨⟨[m], [], []⟩, [], [], []⟩
    let stB : GatewayState := ⟨⟨[], [], []⟩, [], [], []⟩
    let rA := handle_request hash stA req "original/user/bob/f.mp4"
    let rB := handle_request hash stB req "original/user/bob/f.mp4"
    rA.fst = HttpResult.forbidden "Access denied" "no-store" ∧
      rB.fst = HttpResult.notFound "Media not found" ∧
      statusOf rA.fst ≠ statusOf rB.fst := by
  refine ⟨by decide, by decide, by decide⟩

/-- C4 amended: on a validated, non-bypassed path the gateway returns the
fixed not-found 404 when resolution fails and the fixed forbidden 403
with a no-store cache-control when the asset resolves but the caller is
denied; within each failure mode the response shape is constant, but the
two modes carry different status codes and are distinguishable. -/
theorem c4_amended_denial_shapes (hash : String → String) (st : GatewayState)
    (req : Request) (p : String)
    (hv : is_valid_file_path p = true) (hpub : is_public_media_file p = false)
    (hnv : is_non_video_file p = false) :
    (∀ ao, (get_media_from_path_cached st p).fst = (none, ao) →
        handle_request hash st req p =
          (HttpResult.notFound "Media not found", (get_media_from_path_cached st p).snd)) ∧
      (∀ m ao, (get_media_from_path_cached st p).fst = (some m, ao) →
        (check_access_permission hash
            (get_media_from_path_cached st p).snd.permCache req m).fst = false →
        handle_request hash st req p =
          (HttpResult.forbidden "Access denied" "no-store",
            { (get_media_from_path_cached st p).snd with
              permCache := (check_access_permission hash
                (get_media_from_path_cached st p).snd.permCache req m).snd })) ∧
      statusOf (HttpResult.notFound "Media not found") ≠
        statusOf (HttpResult.forbidden "Access denied" "no-store") := by
  refine ⟨?_, ?_, by decide⟩
  · intro ao h
    simp [handle_request, hv, hpub, hnv, resolve_and_serve, h]
  · intro m ao h hc
    simp [handle_request, hv, hpub, hnv, resolve_and_serve, h, hc]

/-- Witness for the amended C4 at a concrete private asset. -/
theorem c4_amended_denial_shapes_witness :
    (∀ ao, (get_media_from_path_cached ⟨⟨[⟨1, "u1", "tok", 7, "bob", "private", "", "f.mp4",
          "original/user/bob/f.mp4", "", "", "", "", ""⟩], [], []⟩, [], [], []⟩
          "original/user/bob/f.mp4").fst = (none, ao) →
        handle_request (fun s => "h" ++ s)
            ⟨⟨[⟨1, "u1", "tok", 7, "bob", "private", "", "f.mp4",
              "original/user/bob/f.mp4", "", "", "", "", ""⟩], [], []⟩, [], [], []⟩
            ⟨⟨0, "anon", false, false, false, false, false⟩, none, []⟩
            "original/user/bob/f.mp4" =
          (HttpResult.notFound "Media not found",
            (get_media_from_path_cached ⟨⟨[⟨1, "u1", "tok", 7, "bob", "private", "", "f.mp4",
              "original/user/bob/f.mp4", "", "", "", "", ""⟩], [], []⟩, [], [], []⟩
              "original/user/bob/f.mp4").snd)) ∧
      (∀ m ao, (get_media_from_path_cached ⟨⟨[⟨1, "u1", "tok", 7, "bob", "private", "",
            "f.mp4", "original/user/bob/f.mp4", "", "", "", "", ""⟩], [], []⟩, [], [], []⟩
            "original/user/bob/f.mp4").fst = (some m, ao) →
        (check_access_permission (fun s => "h" ++ s)
            (get_media_from_path_cached ⟨⟨[⟨1, "u1", "tok", 7, "bob", "private", "", "f.mp4",
              "original/user/bob/f.mp4", "", "", "", "", ""⟩], [], []⟩, [], [], []⟩
              "original/user/bob/f.mp4").snd.permCache
            ⟨⟨0, "anon", false, false, false, false, false⟩, none, []⟩ m).fst = false →
        handle_request (fun s => "h" ++ s)
            ⟨⟨[⟨1, "u1", "tok", 7, "bob", "private", "", "f.mp4",
              "original/user/bob/f.mp4", "", "", "", "", ""⟩], [], []⟩, [], [], []⟩
            ⟨⟨0, "anon", false, false, false, false, false⟩, none, []⟩
            "original/user/bob/f.mp4" =
          (HttpResult.forbidden "Access denied" "no-store",
            { (get_media_from_path_cached ⟨⟨[⟨1, "u1", "tok", 7, "bob", "private", "",
                "f.mp4", "original/user/bob/f.mp4", "", "", "", "", ""⟩], [], []⟩, [], [], []⟩
                "original/user/bob/f.mp4").snd with
              permCache := (check_access_permission (fun s => "h" ++ s)
                (get_media_from_path_cached ⟨⟨[⟨1, "u1", "tok", 7, "bob", "private", "",
                  "f.mp4", "original/user/bob/f.mp4", "", "", "", "", ""⟩], [], []⟩, [], [], []⟩
                  "original/user/bob/f.mp4").snd.permCache
                ⟨⟨0, "anon", false, false, false, false, false⟩, none, []⟩ m).snd })) ∧
      statusOf (HttpResult.notFound "Media not found") ≠
        statusOf (HttpResult.forbidden "Access denied" "no-store") :=
  c4_amended_denial_shapes (fun s => "h" ++ s)
    ⟨⟨[⟨1, "u1", "tok", 7, "bob", "private", "", "f.mp4",
      "original/user/bob/f.mp4", "", "", "", "", ""⟩], [], []⟩, [], [], []⟩
    ⟨⟨0, "anon", false, false, false, false, false⟩, none, []⟩
    "original/user/bob/f.mp4" (by decide) (by decide) (by decide)

theorem versionValue_get_fst_le (st : VersionState) (s i : String) :
    (get_cache_version st s i).fst ≤ versionValue (get_cache_version st s i).snd (s, i) := by
  unfold get_cache_version versionValue
  cases h : alookup st (s, i) with
  | none => simp [alookup_aset_self]
  | some v => simp [h]

theorem versionValue_get_mono (st : VersionState) (s i : String) (k : String × String) :
    versionValue st k ≤ versionValue (get_cache_version st s i).snd k := by
  unfold get_cache_version versionValue
  cases h : alookup st (s, i) with
  | none =>
    by_cases hk : (s, i) = k
    · subst hk
      simp [h, alookup_aset_self]
    · simp [alookup_aset_ne _ _ _ _ hk]
  | some v => simp

theorem versionValue_bump_self (st : VersionState) (s i : String) :
    versionValue (bump_cache_version st s i).snd (s, i) = versionValue st (s, i) + 1 := by
  unfold bump_cache_version versionValue
  cases h : alookup st (s, i) with
  | none => simp [h, alookup_aset_self]
  | some v => simp [h, alookup_aset_self]

theorem versionValue_bump_ne (st : VersionState) (s i : String) (k : String × String)
    (hk : (s, i) ≠ k) :
    versionValue (bump_cache_version st s i).snd k = versionValue st k := by
  unfold bump_cache_version versionValue
  cases h : alookup st (s, i) with
  | none => simp [alookup_aset_ne _ _ _ _ hk]
  | some v => simp [alookup_aset_ne _ _ _ _ hk]

theorem versionValue_applyOp_mono (st : VersionState) (op : VersionOp) (k : String × String) :
    versionValue st k ≤ versionValue (applyVersionOp st op) k := by
  cases op with
  | readVersion s i => exact versionValue_get_mono st s i k
  | bumpVersion s i =>
    by_cases hk : (s, i) = k
    · subst hk
      simp [applyVersionOp, versionValue_bump_self]
    · simp [applyVersionOp, versionValue_bump_ne st s i k hk]

theorem versionValue_runOps_mono (ops : List VersionOp) :
    ∀ (st : VersionState) (k : String × String),
      versionValue st k ≤ versionValue (runVersionOps st ops) k := by
  induction ops with
  | nil => intro st k; simp [runVersionOps]
  | cons op rest ih =>
    intro st k
    calc versionValue st k ≤ versionValue (applyVersionOp st op) k :=
          versionValue_applyOp_mono st op k
      _ ≤ versionValue (runVersionOps (applyVersionOp st op) rest) k :=
          ih (applyVersionOp st op) k
      _ = versionValue (runVersionOps st (op :: rest)) k := rfl

theorem get_fst_of_present (st : VersionState) (s i : String)
    (h : 1 ≤ versionValue st (s, i)) :
    (get_cache_version st s i).fst = versionValue st (s, i) := by
  unfold get_cache_version versionValue at *
  cases hl : alookup st (s, i) with
  | none => simp [hl] at h
  | some v => simp [hl]

/-- C8: a single asset-mutation invalidation bumps both the version of
the media scope of that asset and the version of the global list scope by
exactly one, and any version read after the invalidation (hence embedded
into any later derived cache key) is strictly greater than any version
read before it, for both scopes, whatever reads and bumps other
components interleave, so a post-bump key never equals a pre-bump key. -/
theorem c8_invalidation_bumps_both_scopes (st : VersionState) (ops ops2 : List VersionOp)
    (tok : String) :
    let issueM := get_cache_version st "media" tok
    let issueL := get_cache_version issueM.snd "media_list" "all"
    let stB := runVersionOps issueL.snd ops
    let stC := (invalidate_media_cache stB tok).snd
    let readM := get_cache_version (runVersionOps stC ops2) "media" tok
    let readL := get_cache_version (runVersionOps stC ops2) "media_list" "all"
    versionValue stC ("media", tok) = versionValue stB ("media", tok) + 1 ∧
      versionValue stC ("media_list", "all") = versionValue stB ("media_list", "all") + 1 ∧
      issueM.fst < readM.fst ∧ issueL.fst < readL.fst := by
  intro issueM issueL stB stC readM readL
  have hkeys : (("media" : String), tok) ≠ (("media_list" : String), "all") := by
    intro h
    have hfst : ("media" : String) = "media_list" := congrArg Prod.fst h
    exact absurd hfst (by decide)
  have hC : stC = (bump_cache_version
      (bump_cache_version stB "media" tok).snd "media_list" "all").snd := rfl
  have hCm : versionValue stC ("media", tok) = versionValue stB ("media", tok) + 1 := by
    rw [hC, versionValue_bump_ne _ _ _ _ (Ne.symm hkeys), versionValue_bump_self]
  have hCl : versionValue stC ("media_list", "all") =
      versionValue stB ("media_list", "all") + 1 := by
    rw [hC, versionValue_bump_self, versionValue_bump_ne _ _ _ _ hkeys]
  have hBm : issueM.fst ≤ versionValue stB ("media", tok) := by
    calc issueM.fst ≤ versionValue issueM.snd ("media", tok) :=
          versionValue_get_fst_le st "media" tok
      _ ≤ versionValue issueL.snd ("media", tok) :=
          versionValue_get_mono issueM.snd "media_list" "all" _
      _ ≤ versionValue stB ("media", tok) := versionValue_runOps_mono ops issueL.snd _
  have hBl : issueL.fst ≤ versionValue stB ("media_list", "all") := by
    calc issueL.fst ≤ versionValue issueL.snd ("media_list", "all") :=
          versionValue_get_fst_le issueM.snd "media_list" "all"
      _ ≤ versionValue stB ("media_list", "all") := versionValue_runOps_mono ops issueL.snd _
  have hreadM : versionValue stC ("media", tok) ≤
      versionValue (runVersionOps stC ops2) ("media", tok) :=
    versionValue_runOps_mono ops2 stC _
  have hreadL : versionValue stC ("media_list", "all") ≤
      versionValue (runVersionOps stC ops2) ("media_list", "all") :=
    versionValue_runOps_mono ops2 stC _
  have hM1 : 1 ≤ versionValue (runVersionOps stC ops2) ("media", tok) := by omega
  have hL1 : 1 ≤ versionValue (runVersionOps stC ops2) ("media_list", "all") := by omega
  have hfM : readM.fst = versionValue (runVersionOps stC ops2) ("media", tok) :=
    get_fst_of_present _ _ _ hM1
  have hfL : readL.fst = versionValue (runVersionOps stC ops2) ("media_list", "all") :=
    get_fst_of_present _ _ _ hL1
  refine ⟨hCm, hCl, ?_, ?_⟩ <;> omega

theorem not_origuser_of_thumbnail {p : String}
    (h : strStartsWith p "original/thumbnails/user/" = true) :
    strStartsWith p "original/user/" = false := by
  obtain ⟨t, ht⟩ := strStartsWith_exists h
  obtain ⟨l⟩ := p
  simp only [String.data] at ht
  subst ht
  rfl

theorem not_encoded_of_thumbnail {p : String}
    (h : strStartsWith p "original/thumbnails/user/" = true) :
    strStartsWith p "encoded/" = false := by
  obtain ⟨t, ht⟩ := strStartsWith_exists h
  obtain ⟨l⟩ := p
  simp only [String.data] at ht
  subst ht
  rfl

theorem mem_insertById {x m : Media} {l : List Media} :
    x ∈ insertById m l ↔ x = m ∨ x ∈ l := by
  induction l with
  | nil => simp [insertById]
  | cons h t ih =>
    by_cases hle : m.id ≤ h.id
    · simp [insertById, hle]
    · simp [insertById, hle, ih]
      tauto

theorem mem_sortById {x : Media} {l : List Media} : x ∈ sortById l ↔ x ∈ l := by
  induction l with
  | nil => simp [sortById]
  | cons h t ih =>
    simp only [sortById, List.foldr] at *
    rw [mem_insertById, ih]
    simp

theorem thumbnailExactQuery_some {db : DB} {u tpath : String} {m : Media}
    (h : thumbnailExactQuery db u tpath = some m) :
    m.username = u ∧ (m.thumbnail = tpath ∨ m.poster = tpath ∨ m.uploaded_thumbnail = tpath ∨
      m.uploaded_poster = tpath ∨ m.sprites = tpath) := by
  unfold thumbnailExactQuery at h
  have hmem : m ∈ sortById (db.media.filter (fun m =>
      m.username == u &&
        (m.thumbnail == tpath || m.poster == tpath || m.uploaded_thumbnail == tpath ||
          m.uploaded_poster == tpath || m.sprites == tpath))) :=
    List.mem_of_mem_head? (by simp [h])
  have hf := (List.mem_filter.mp (mem_sortById.mp hmem)).2
  simp only [Bool.and_eq_true, Bool.or_eq_true, beq_iff_eq] at hf
  tauto

theorem mem_thumbnailPaths_of_field {m : Media} {tp : String} (hne : tp ≠ "")
    (h : m.thumbnail = tp ∨ m.poster = tp ∨ m.uploaded_thumbnail = tp ∨
      m.uploaded_poster = tp ∨ m.sprites = tp) :
    tp ∈ thumbnailPaths m := by
  have htr : strTruthy tp = true := by
    simp [strTruthy, hne]
  rcases h with h | h | h | h | h <;>
    · rw [← h] at htr ⊢
      simp [thumbnailPaths, htr]

theorem scanThumbnailMatches_verifies (db : DB) (p u : String) :
    ∀ (l : List Media) (acc : Option Media) (m : Media),
      (∀ t, acc = some t → verify_media_owns_thumbnail_path db t p = true) →
      scanThumbnailMatches db p u l acc = some m →
      verify_media_owns_thumbnail_path db m p = true := by
  intro l
  induction l with
  | nil =>
    intro acc m hacc hscan
    exact hacc m hscan
  | cons m0 rest ih =>
    intro acc m hacc hscan
    unfold scanThumbnailMatches at hscan
    by_cases hv : verify_media_owns_thumbnail_path db m0 p = true
    · rw [if_pos hv] at hscan
      by_cases hu : (m0.username == u) = true
      · rw [if_pos hu] at hscan
        obtain rfl : m0 = m := by simpa using hscan
        exact hv
      · rw [if_neg hu] at hscan
        cases hA : acc with
        | none =>
          rw [hA] at hscan
          refine ih (some m0) m (fun t ht => ?_) hscan
          obtain rfl : m0 = t := by simpa using ht
          exact hv
        | some t0 =>
          rw [hA] at hscan
          refine ih (some t0) m (fun t ht => ?_) hscan
          obtain rfl : t0 = t := by simpa using ht
          exact hacc t0 hA
    · rw [if_neg hv] at hscan
      exact ih acc m hacc hscan

theorem verify_thumbclass_mem {db : DB} {m : Media} {p : String}
    (hpfx : strStartsWith p "original/thumbnails/user/" = true)
    (h : verify_media_owns_thumbnail_path db m p = true) :
    p ∈ thumbnailPaths m := by
  unfold verify_media_owns_thumbnail_path at h
  by_cases hc : (thumbnailPaths m).contains p = true
  · simpa using hc
  · rw [if_neg hc, not_encoded_of_thumbnail hpfx] at h
    simp at h

theorem thumb_reconstructed_ne_empty (u f : String) :
    ("original/thumbnails/user/" ++ u ++ "/" ++ f) ≠ "" := by
  intro h
  have hd := congrArg String.data h
  simp only [String.data_append] at hd
  simp at hd

/-- C1 counterexample: the exact thumbnail query compares the stored
fields against the path reconstructed from only the owner and filename
segments, so a six-segment request path is accepted for a media row whose
stored thumbnail equals the five-segment truncation: resolution returns
that row although the requested path string equals none of its recorded
thumbnail-field paths. -/
theorem c1_truncated_exact_match_counterexample :
    let A : Media := ⟨1, "u1", "tokA", 7, "alice", "private", "", "", "",
      "original/thumbnails/user/alice/a", "", "", "", ""⟩
    let db : DB := ⟨[A], [], []⟩
    let p := "original/thumbnails/user/alice/a/b.jpg"
    strStartsWith p "original/thumbnails/user/" = true ∧
      (get_media_from_path db p).fst = (some A, none) ∧
      ¬ p ∈ thumbnailPaths A := by
  refine ⟨by decide, by decide, by decide⟩

/-- C1 amended: for a thumbnail-class path, resolution accepts a media
row only if the path reconstructed from the owner and filename segments
(the first five segments) or the full requested path string exactly
equals one of the recorded thumbnail-field paths of the row; for
five-segment
request paths the two coincide, suffix matches alone are never
sufficient, and when no suffix candidate verifies exact ownership
resolution reports not-found. -/
theorem c1_amended_thumbnail_exact_ownership (db : DB) (p : String) (m : Media)
    (o : Option String) (db2 : DB)
    (hpfx : strStartsWith p "original/thumbnails/user/" = true)
    (hres : get_media_from_path db p = ((some m, o), db2)) :
    reconstructedThumbnailPath p ∈ thumbnailPaths m ∨ p ∈ thumbnailPaths m := by
  have hnu := not_origuser_of_thumbnail hpfx
  unfold get_media_from_path at hres
  rw [hnu] at hres
  rw [hpfx] at hres
  simp only [Bool.false_eq_true, if_false, if_true] at hres
  by_cases hlen : (splitSlash p).length ≥ 5
  · rw [if_pos hlen] at hres
    cases hq : thumbnailExactQuery db ((splitSlash p).getD 3 "")
        ("original/thumbnails/user/" ++ (splitSlash p).getD 3 "" ++ "/" ++
          (splitSlash p).getD 4 "") with
    | some m0 =>
      rw [hq] at hres
      simp only [Prod.mk.injEq, Option.some.injEq] at hres
      obtain ⟨⟨rfl, _⟩, _⟩ := hres
      left
      obtain ⟨_, hfield⟩ := thumbnailExactQuery_some hq
      exact mem_thumbnailPaths_of_field
        (thumb_reconstructed_ne_empty ((splitSlash p).getD 3 "") ((splitSlash p).getD 4 ""))
        hfield
    | none =>
      rw [hq] at hres
      cases hscan : scanThumbnailMatches db p ((splitSlash p).getD 3 "")
          ((thumbnailSuffixQuery db ((splitSlash p).getD 4 "")).take 10) none with
      | some m0 =>
        rw [hscan] at hres
        simp only [Prod.mk.injEq, Option.some.injEq] at hres
        obtain ⟨⟨rfl, _⟩, _⟩ := hres
        right
        exact verify_thumbclass_mem hpfx
          (scanThumbnailMatches_verifies db p ((splitSlash p).getD 3 "") _ none _
            (fun t ht => by simp at ht) hscan)
      | none =>
        rw [hscan] at hres
        simp at hres
  · rw [if_neg hlen] at hres
    simp at hres

/-- Witness for the amended C1 at a concrete five-segment thumbnail path
resolved through the exact query. -/
theorem c1_amended_thumbnail_exact_ownership_witness :
    reconstructedThumbnailPath "original/thumbnails/user/alice/t.jpg" ∈
        thumbnailPaths ⟨1, "u1", "tokA", 7, "alice", "private", "", "", "",
          "original/thumbnails/user/alice/t.jpg", "", "", "", ""⟩ ∨
      "original/thumbnails/user/alice/t.jpg" ∈
        thumbnailPaths ⟨1, "u1", "tokA", 7, "alice", "private", "", "", "",
          "original/thumbnails/user/alice/t.jpg", "", "", "", ""⟩ :=
  c1_amended_thumbnail_exact_ownership
    ⟨[⟨1, "u1", "tokA", 7, "alice", "private", "", "", "",
      "original/thumbnails/user/alice/t.jpg", "", "", "", ""⟩], [], []⟩
    "original/thumbnails/user/alice/t.jpg"
    ⟨1, "u1", "tokA", 7, "alice", "private", "", "", "",
      "original/thumbnails/user/alice/t.jpg", "", "", "", ""⟩
    none
    ⟨[⟨1, "u1", "tokA", 7, "alice", "private", "", "", "",
      "original/thumbnails/user/alice/t.jpg", "", "", "", ""⟩], [], []⟩
    (by decide) (by decide)

theorem not_thumbnail_of_origuser {p : String}
    (h : strStartsWith p "original/user/" = true) :
    strStartsWith p "original/thumbnails/user/" = false := by
  obtain ⟨t, ht⟩ := strStartsWith_exists h
  obtain ⟨l⟩ := p
  simp only [String.data] at ht
  subst ht
  rfl

theorem not_encoded_of_origuser {p : String}
    (h : strStartsWith p "original/user/" = true) :
    strStartsWith p "encoded/" = false := by
  obtain ⟨t, ht⟩ := strStartsWith_exists h
  obtain ⟨l⟩ := p
  simp only [String.data] at ht
  subst ht
  rfl

theorem find?_by_id_unique {l : List Media} {m : Media}
    (huniq : ∀ m1 ∈ l, ∀ m2 ∈ l, m1.id = m2.id → m1 = m2) (hmem : m ∈ l) :
    l.find? (fun x => x.id == m.id) = some m := by
  have hsome : (l.find? (fun x => x.id == m.id)).isSome =
      true :=
    List.find?_isSome.mpr ⟨m, hmem, by simp⟩
  obtain ⟨x, hx⟩ := Option.isSome_iff_exists.mp hsome
  have hxl := List.mem_of_find?_eq_some hx
  have hpred := List.find?_some hx
  simp only [beq_iff_eq] at hpred
  rw [hx]
  exact congrArg some (huniq x hxl m hmem hpred)


theorem origuser_override_inversion {db db2 : DB} {p : String} {m : Media} {op : String}
    (hpfx : strStartsWith p "original/user/" = true)
    (h : get_media_from_path db p = ((some m, some op), db2)) :
    db2 = db ∧ m ∈ db.media ∧ op = m.media_file := by
  unfold get_media_from_path at h
  rw [hpfx] at h
  simp only [if_true] at h
  by_cases hlen : (splitSlash p).length ≥ 4
  · rw [if_pos hlen] at h
    cases h1 : db.media.find? (fun mm => mm.username == (splitSlash p).getD 2 "" &&
        mm.filename == (splitSlash p).getD 3 "") with
    | some m1 =>
      rw [h1] at h
      simp at h
    | none =>
      rw [h1] at h
      cases h2 : db.media.find? (fun mm => mm.username == (splitSlash p).getD 2 "" &&
          strEndsWith mm.media_file ((splitSlash p).getD 3 "")) with
      | some m2 =>
        rw [h2] at h
        cases htf : strTruthy m2.filename <;> simp [htf] at h
      | none =>
        rw [h2] at h
        cases h3 : db.media.find? (fun mm => mm.filename == (splitSlash p).getD 3 "") with
        | some m3 =>
          rw [h3] at h
          cases htm : strTruthy m3.media_file with
          | false => simp [htm] at h
          | true =>
            simp only [htm, Bool.not_true, Bool.false_eq_true, if_false,
              Prod.mk.injEq, Option.some.injEq] at h
            obtain ⟨⟨rfl, hop⟩, hdb⟩ := h
            exact ⟨hdb.symm, List.mem_of_find?_eq_some h3, hop.symm⟩
        | none =>
          rw [h3] at h
          simp at h
  · rw [if_neg hlen] at h
    simp at h

/-- C3 counterexample: for an ownership-transferred path the first
resolution returns the stored actual path as an override, but the second
resolution, served from the forward cache, returns no override: the
override component of the two resolutions differs, so resolving twice
does not yield the same override path both times. -/
theorem c3_cached_resolution_loses_override :
    let M : Media := ⟨1, "u1", "tok", 7, "bob", "public", "", "f.mp4",
      "original/user/bob/f.mp4", "", "", "", "", ""⟩
    let st0 : GatewayState := ⟨⟨[M], [], []⟩, [], [], []⟩
    let p := "original/user/alice/f.mp4"
    let r1 := get_media_from_path_cached st0 p
    let r2 := get_media_from_path_cached r1.snd p
    r1.fst = (some M, some "original/user/bob/f.mp4") ∧
      r2.fst = (some M, none) ∧
      r1.fst.snd ≠ r2.fst.snd := by
  refine ⟨by decide, by decide, by decide⟩

/-- C3 amended: for an original/user/ path first resolved on a
forward-cache miss — a path class whose cache hits are never
re-verified — a second resolution with no intervening mutation is served
from the forward path cache (the state is returned unchanged) and yields
the same asset, but with no override path: the ownership-transfer
override returned by the first resolution is not reproduced by the
cache-served second resolution. This is specific to path classes that
skip cache-hit re-verification; for a re-verified class such as encoded
GIF transfers a stale hit is instead evicted and freshly re-resolved,
which returns the override again. -/
theorem c3_amended_second_resolution_from_cache (st : GatewayState) (p : String)
    (m : Media) (op : String) (st2 : GatewayState)
    (hpfx : strStartsWith p "original/user/" = true)
    (hmiss : alookup st.pathCache p = none)
    (huniq : ∀ m1 ∈ st.db.media, ∀ m2 ∈ st.db.media, m1.id = m2.id → m1 = m2)
    (hid : m.id ≠ 0)
    (hres : get_media_from_path_cached st p = ((some m, some op), st2)) :
    get_media_from_path_cached st2 p = ((some m, none), st2) := by
  have hcm : get_cached_media_id st p = none := by
    simp [get_cached_media_id, hmiss]
  unfold get_media_from_path_cached at hres
  rw [hcm] at hres
  simp only [get_media_from_path_fresh] at hres
  cases hqq : (get_media_from_path st.db p).fst.fst with
  | none =>
    rw [hqq] at hres
    simp at hres
  | some m1 =>
    rw [hqq] at hres
    simp only [Prod.mk.injEq, Option.some.injEq] at hres
    obtain ⟨⟨rfl, hop⟩, hst2⟩ := hres
    have hfull : get_media_from_path st.db p =
        ((some m1, some op), (get_media_from_path st.db p).snd) := by
      have he : get_media_from_path st.db p =
          (((get_media_from_path st.db p).fst.fst, (get_media_from_path st.db p).fst.snd),
            (get_media_from_path st.db p).snd) := rfl
      rw [he, hqq, hop]
    obtain ⟨hdb, hmem, hopv⟩ := origuser_override_inversion hpfx hfull
    rw [hdb] at hst2
    have hst2v : st2 = set_cached_media_id st p m1.id := hst2.symm
    subst hst2v
    unfold get_media_from_path_cached
    have hget : get_cached_media_id (set_cached_media_id st p m1.id) p = some m1.id := by
      simp [get_cached_media_id, set_cached_media_id, alookup_aset_self, hid]
    rw [hget]
    have hfind : mediaById (set_cached_media_id st p m1.id).db m1.id = some m1 := by
      unfold mediaById set_cached_media_id
      exact find?_by_id_unique huniq hmem
    simp only [hfind, not_thumbnail_of_origuser hpfx, not_encoded_of_origuser hpfx]
    simp

/-- Witness for the amended C3 at the concrete ownership-transfer
scenario. -/
theorem c3_amended_second_resolution_from_cache_witness :
    get_media_from_path_cached
        ⟨⟨[⟨1, "u1", "tok", 7, "bob", "public", "", "f.mp4",
          "original/user/bob/f.mp4", "", "", "", "", ""⟩], [], []⟩,
          [("original/user/alice/f.mp4", 1)], [(1, ["original/user/alice/f.mp4"])], []⟩
        "original/user/alice/f.mp4" =
      ((some ⟨1, "u1", "tok", 7, "bob", "public", "", "f.mp4",
        "original/user/bob/f.mp4", "", "", "", "", ""⟩, none),
        ⟨⟨[⟨1, "u1", "tok", 7, "bob", "public", "", "f.mp4",
          "original/user/bob/f.mp4", "", "", "", "", ""⟩], [], []⟩,
          [("original/user/alice/f.mp4", 1)], [(1, ["original/user/alice/f.mp4"])], []⟩) :=
  c3_amended_second_resolution_from_cache
    ⟨⟨[⟨1, "u1", "tok", 7, "bob", "public", "", "f.mp4",
      "original/user/bob/f.mp4", "", "", "", "", ""⟩], [], []⟩, [], [], []⟩
    "original/user/alice/f.mp4"
    ⟨1, "u1", "tok", 7, "bob", "public", "", "f.mp4",
      "original/user/bob/f.mp4", "", "", "", "", ""⟩
    "original/user/bob/f.mp4"
    ⟨⟨[⟨1, "u1", "tok", 7, "bob", "public", "", "f.mp4",
      "original/user/bob/f.mp4", "", "", "", "", ""⟩], [], []⟩,
      [("original/user/alice/f.mp4", 1)], [(1, ["original/user/alice/f.mp4"])], []⟩
    (by decide) (by decide) (by decide) (by decide) (by decide)
